import Mathlib

/-!
Shallow embedding of the iris IRC-style chat server
(src/iris/src/main.rs and src/iris/src/lib/helpers.rs).

The two shared registries are embedded as duplicate-free association
lists: `UserMap` for the user directory (nick → output handle) and
`ChannelMap` for the channel directory (channel name → ordered member
list).  `ConnectionWrite` handles are identified by a `Nat` tag; a send
is recorded as the pair (directory key used to look the handle up,
rendered reply).  A Rust `.unwrap()` on a failed directory lookup is a
panic, so every operation that can hit one returns `Option`: `none`
models the panic.
-/

namespace Iris

/-- Nick: the `Nick(String)` newtype of the source, embedded as its payload. -/
abbrev Nick := String

/-- Channel: the `Channel(String)` newtype of the source, embedded as its payload. -/
abbrev Channel := String

/-- ConnectionWrite: an output handle, identified by an opaque numeric tag. -/
abbrev ConnectionWrite := Nat

/-- UserMap: the user directory `HashMap<Nick, ConnectionWrite>` (main.rs line 36),
embedded as a duplicate-free association list. -/
abbrev UserMap := List (Nick × ConnectionWrite)

/-- ChannelMap: the channel directory `HashMap<Channel, Vec<Nick>>` (main.rs line 38). -/
abbrev ChannelMap := List (Channel × List Nick)

/-- mapGet: `HashMap::get` / `get_mut` on the association-list embedding. -/
def mapGet {β : Type} : List (String × β) → String → Option β
  | [], _ => none
  | (k, v) :: rest, key => if k = key then some v else mapGet rest key

/-- mapContains: `HashMap::contains_key`. -/
def mapContains {β : Type} (m : List (String × β)) (key : String) : Bool :=
  (mapGet m key).isSome

/-- mapInsert: `HashMap::insert` — replaces the value in place when the key is
present (this is also the effect of a mutation through `get_mut`), appends a
fresh entry otherwise. -/
def mapInsert {β : Type} : List (String × β) → String → β → List (String × β)
  | [], key, v => [(key, v)]
  | (k, w) :: rest, key, v =>
    if k = key then (key, v) :: rest else (k, w) :: mapInsert rest key v

/-- mapRemove: `HashMap::remove`. -/
def mapRemove {β : Type} : List (String × β) → String → List (String × β)
  | [], _ => []
  | (k, v) :: rest, key =>
    if k = key then mapRemove rest key else (k, v) :: mapRemove rest key

/-- Reply: the typed replies, notices and errors the dispatcher emits
(iris_lib::types).  Only the payload the core chooses is modelled; the
textual rendering is an excluded collaborator. -/
inductive Reply where
  | privChannelMsg (channel : Channel) (message : String) (sender : Nick)
  | privUserMsg (target : Nick) (message : String) (sender : Nick)
  | joinNotice (channel : Channel) (sender : Nick)
  | partNotice (channel : Channel) (sender : Nick)
  | quitNotice (message : String) (sender : Nick)
  | welcome (target : Nick) (message : String)
  | pong (message : String)
  | errNickCollision
  | errNoSuchChannel
  | errNoSuchNick
deriving DecidableEq, Repr

/-- Send: one delivery attempt, recorded as the user-directory key whose
handle was looked up (`get_mut`) together with the reply written to it. -/
abbrev Send := Nick × Reply

/-- sendToAll: the `list.iter().for_each(|nick| ...)` fan-out pattern of
helpers.rs — for each recipient nick, lock the user map, look the handle up
with `.unwrap()`, and write one reply.  A missing nick makes the `.unwrap()`
panic, modelled as `none`. -/
def sendToAll (userMap : UserMap) (reply : Reply) : List Nick → Option (List Send)
  | [] => some []
  | n :: rest =>
    match mapGet userMap n with
    | none => none
    | some _ =>
      match sendToAll userMap reply rest with
      | none => none
      | some sends => some ((n, reply) :: sends)

/-- private_msg_channel (helpers.rs lines 25-63): channel present →
fan the tagged message out to every member in list order; channel absent →
look the sender's own handle up (`.unwrap()`, panics if missing) and reply
NoSuchChannel.  Neither directory is mutated. -/
def private_msg_channel (channels : ChannelMap) (userMap : UserMap) (channel : Channel)
    (privMsg : String) (nickname : Nick) : Option (List Send) :=
  match mapGet channels channel with
  | some list => sendToAll userMap (Reply.privChannelMsg channel privMsg nickname) list
  | none =>
    match mapGet userMap nickname with
    | none => none
    | some _ => some [(nickname, Reply.errNoSuchChannel)]

/-- private_msg_user (helpers.rs lines 65-91): target present → deliver the
tagged message to the target's handle only; target absent → reply NoSuchNick
through the sender's own handle (`.unwrap()`, panics if the sender is
missing).  The user directory is not mutated. -/
def private_msg_user (userMap : UserMap) (nickname : Nick) (user : Nick)
    (privMsg : String) : Option (List Send) :=
  if mapContains userMap user then
    some [(user, Reply.privUserMsg user privMsg nickname)]
  else
    match mapGet userMap nickname with
    | none => none
    | some _ => some [(nickname, Reply.errNoSuchNick)]

/-- join_channel (helpers.rs lines 93-141): channel present and sender
already a member → nothing; present and not a member → push the sender onto
the member list, then fan the Join notice out over the post-append list;
absent → send the Join notice to the sender only (`.unwrap()` on the
sender's handle) and insert the channel with the sender as sole member. -/
def join_channel (channels : ChannelMap) (userMap : UserMap) (nickname : Nick)
    (channel : Channel) : Option (ChannelMap × List Send) :=
  match mapGet channels channel with
  | some list =>
    if nickname ∈ list then
      some (channels, [])
    else
      match sendToAll userMap (Reply.joinNotice channel nickname) (list ++ [nickname]) with
      | none => none
      | some sends => some (mapInsert channels channel (list ++ [nickname]), sends)
  | none =>
    match mapGet userMap nickname with
    | none => none
    | some _ =>
      some (mapInsert channels channel [nickname],
            [(nickname, Reply.joinNotice channel nickname)])

/-- part_channel (helpers.rs lines 143-178): channel present and sender a
member → fan the Part notice out over the pre-removal list, then
`retain` every nick other than the sender; present and not a member →
nothing; absent → reply NoSuchChannel through the sender's own handle. -/
def part_channel (channels : ChannelMap) (userMap : UserMap) (channel : Channel)
    (nickname : Nick) : Option (ChannelMap × List Send) :=
  match mapGet channels channel with
  | some list =>
    if nickname ∈ list then
      match sendToAll userMap (Reply.partNotice channel nickname) list with
      | none => none
      | some sends =>
        some (mapInsert channels channel (list.filter (fun u => u != nickname)), sends)
    else
      some (channels, [])
  | none =>
    match mapGet userMap nickname with
    | none => none
    | some _ => some (channels, [(nickname, Reply.errNoSuchChannel)])

/-- quitChannels: the `for (_channel, channel_users) in channel_mutex.iter_mut()`
loop of quit_server (helpers.rs lines 187-208) — for each channel whose member
list contains the quitting nick, `retain` the other members first, then fan the
Quit notice out over the remaining members.  The `HashMap` iteration order is
unspecified; the association list fixes one order, and every claim proved below
is per-channel and order-independent. -/
def quitChannels (userMap : UserMap) (nickname : Nick) (message : String) :
    ChannelMap → Option (ChannelMap × List Send)
  | [] => some ([], [])
  | (channel, users) :: rest =>
    if nickname ∈ users then
      match sendToAll userMap (Reply.quitNotice message nickname)
          (users.filter (fun u => u != nickname)) with
      | none => none
      | some sends =>
        match quitChannels userMap nickname message rest with
        | none => none
        | some (rest', sends') =>
          some ((channel, users.filter (fun u => u != nickname)) :: rest',
                sends ++ sends')
    else
      match quitChannels userMap nickname message rest with
      | none => none
      | some (rest', sends') => some ((channel, users) :: rest', sends')

/-- quit_server (helpers.rs lines 181-211): process every channel with
`quitChannels`, then remove the quitting nick from the user directory. -/
def quit_server (channels : ChannelMap) (userMap : UserMap) (nickname : Nick)
    (message : String) : Option (ChannelMap × UserMap × List Send) :=
  match quitChannels userMap nickname message channels with
  | none => none
  | some (channels', sends) => some (channels', mapRemove userMap nickname, sends)

/-- quitMessage: the Quit dispatch in main.rs lines 193-196 — the notice
carries the client-supplied reason, defaulting to the sender's nick. -/
def quitMessage (quitMsg : Option String) (nickname : Nick) : String :=
  match quitMsg with
  | some msg => msg
  | none => nickname

/-- Session: the per-connection handshake state of the first loop in main.rs
(lines 48-49): the `nicked` flag and the `nickname` variable. -/
structure Session where
  nicked : Bool
  nickname : Nick
deriving DecidableEq, Repr

/-- handleNick: the `Message::Nick` arm of the handshake loop (main.rs lines
73-88).  The code assigns `nickname = nick_msg.nick` before checking the
directory, so the stored candidate changes even on a collision; the reply
list is written to the session's own connection. -/
def handleNick (userMap : UserMap) (session : Session) (candidate : Nick) :
    Session × List Reply :=
  let session := { session with nickname := candidate }
  if mapContains userMap candidate then
    (session, [Reply.errNickCollision])
  else
    ({ session with nicked := true }, [])

/-- handleUser: the `Message::User` arm of the handshake loop (main.rs lines
90-108).  When `nicked` is set the code sends the welcome, then calls
`HashMap::insert`, which overwrites any existing entry for the nick, and
breaks out of the handshake loop (the returned Bool: registered).  When
`nicked` is not set, nothing happens. -/
def handleUser (userMap : UserMap) (session : Session) (realName : String)
    (conn : ConnectionWrite) : UserMap × Bool × List Reply :=
  if session.nicked then
    (mapInsert userMap session.nickname conn, true,
     [Reply.welcome session.nickname ("Welcome to this server, " ++ realName ++ "!")])
  else
    (userMap, false, [])

/-- LockEvent: an abstract event in the order-sensitive behaviour of one
dispatched operation: acquiring/releasing the channel-directory mutex
(`channels`) or the user-directory mutex (`user_map`), performing one send
through a looked-up handle, or mutating one of the directories. -/
inductive LockEvent where
  | acqChannel
  | relChannel
  | acqUser
  | relUser
  | send
  | mutateChannel
  | mutateUser
deriving DecidableEq, Repr

/-- afterEvent: how one event updates the pair of held-lock flags
(channel lock held, user lock held). -/
def afterEvent (cHeld uHeld : Bool) : LockEvent → Bool × Bool
  | LockEvent.acqChannel => (true, uHeld)
  | LockEvent.relChannel => (false, uHeld)
  | LockEvent.acqUser => (cHeld, true)
  | LockEvent.relUser => (cHeld, false)
  | _ => (cHeld, uHeld)

/-- channelBeforeUser: scanning a trace while tracking the held-lock flags,
every acquisition and release is well formed, and in particular the channel
lock is never acquired while the user lock is held — the fixed acquisition
order that makes opposite-order acquisition (and hence a two-worker lock
cycle) impossible. -/
def channelBeforeUser (cHeld uHeld : Bool) : List LockEvent → Bool
  | [] => true
  | e :: rest =>
    (match e with
     | LockEvent.acqChannel => !cHeld && !uHeld
     | LockEvent.relChannel => cHeld
     | LockEvent.acqUser => !uHeld
     | LockEvent.relUser => uHeld
     | _ => true) &&
    channelBeforeUser (afterEvent cHeld uHeld e).1 (afterEvent cHeld uHeld e).2 rest

/-- bothHeldOnlySends: while both locks are held simultaneously, the only
events are sends (or the releases that end the span) — no directory
mutation happens with both locks held. -/
def bothHeldOnlySends (cHeld uHeld : Bool) : List LockEvent → Bool
  | [] => true
  | e :: rest =>
    (if cHeld && uHeld then
      match e with
      | LockEvent.send => true
      | LockEvent.relUser => true
      | LockEvent.relChannel => true
      | _ => false
     else true) &&
    bothHeldOnlySends (afterEvent cHeld uHeld e).1 (afterEvent cHeld uHeld e).2 rest

/-- fanoutTrace: the `for_each` fan-out of helpers.rs — for each of the n
recipients: acquire the user lock, look the handle up, perform one send,
and release the user lock at the end of the closure body. -/
def fanoutTrace : Nat → List LockEvent
  | 0 => []
  | n + 1 => LockEvent.acqUser :: LockEvent.send :: LockEvent.relUser :: fanoutTrace n

/-- private_msg_channel_trace: main.rs line 143 acquires the channel lock,
helpers.rs lines 32-62 then either fan out to the n members (present) or
send one NoSuchChannel error under a short user-lock span (absent); the
channel guard is released when the helper returns. -/
def private_msg_channel_trace (present : Bool) (members : Nat) : List LockEvent :=
  if present then
    LockEvent.acqChannel :: (fanoutTrace members ++ [LockEvent.relChannel])
  else
    [LockEvent.acqChannel, LockEvent.acqUser, LockEvent.send, LockEvent.relUser,
     LockEvent.relChannel]

/-- private_msg_user_trace: main.rs lines 152-160 with helpers.rs lines
65-91 — only the user lock is ever taken, for the span of one send. -/
def private_msg_user_trace : List LockEvent :=
  [LockEvent.acqUser, LockEvent.send, LockEvent.relUser]

/-- ping_trace: main.rs lines 162-171 — only the user lock, one send. -/
def ping_trace : List LockEvent :=
  [LockEvent.acqUser, LockEvent.send, LockEvent.relUser]

/-- JoinBranch: the three control-flow branches of join_channel. -/
inductive JoinBranch where
  | member
  | newMember (members : Nat)
  | create
deriving DecidableEq, Repr

/-- join_channel_trace: main.rs line 173 acquires the channel lock,
helpers.rs lines 99-140 dispatch on the branch.  In the create branch
(lines 122-139) the `channel_mutex.insert` at line 138 runs while the user
guard taken at line 123 is still live, so the channel directory is mutated
with both locks held. -/
def join_channel_trace : JoinBranch → List LockEvent
  | JoinBranch.member => [LockEvent.acqChannel, LockEvent.relChannel]
  | JoinBranch.newMember n =>
    LockEvent.acqChannel :: LockEvent.mutateChannel ::
      (fanoutTrace n ++ [LockEvent.relChannel])
  | JoinBranch.create =>
    [LockEvent.acqChannel, LockEvent.acqUser, LockEvent.send,
     LockEvent.mutateChannel, LockEvent.relUser, LockEvent.relChannel]

/-- PartBranch: the three control-flow branches of part_channel. -/
inductive PartBranch where
  | member (members : Nat)
  | nonMember
  | absent
deriving DecidableEq, Repr

/-- part_channel_trace: main.rs line 183 acquires the channel lock,
helpers.rs lines 149-177 dispatch; in the member branch the `retain` at
line 169 runs after the fan-out with only the channel lock held. -/
def part_channel_trace : PartBranch → List LockEvent
  | PartBranch.member n =>
    LockEvent.acqChannel ::
      (fanoutTrace n ++ [LockEvent.mutateChannel, LockEvent.relChannel])
  | PartBranch.nonMember => [LockEvent.acqChannel, LockEvent.relChannel]
  | PartBranch.absent =>
    [LockEvent.acqChannel, LockEvent.acqUser, LockEvent.send, LockEvent.relUser,
     LockEvent.relChannel]

/-- quitLoopTrace: the per-channel body of quit_server's loop (helpers.rs
lines 187-207) for the channels that contain the quitting nick, indexed by
the number of remaining members in each: `retain` under the channel lock,
then the fan-out. -/
def quitLoopTrace : List Nat → List LockEvent
  | [] => []
  | k :: rest => LockEvent.mutateChannel :: (fanoutTrace k ++ quitLoopTrace rest)

/-- quit_server_trace: main.rs line 198 acquires the channel lock,
helpers.rs lines 187-210 run the loop and then the final
`user_map_mutex.remove` (lines 209-210), which executes while the channel
guard is still held — a user-directory mutation with both locks held. -/
def quit_server_trace (remaining : List Nat) : List LockEvent :=
  LockEvent.acqChannel ::
    (quitLoopTrace remaining ++
      [LockEvent.acqUser, LockEvent.mutateUser, LockEvent.relUser,
       LockEvent.relChannel])

/-! Helper lemmas about the association-list directories and the fan-out. -/

theorem mapGet_mapInsert_self {β : Type} (m : List (String × β)) (key : String) (v : β) :
    mapGet (mapInsert m key v) key = some v := by
  induction m with
  | nil => simp [mapInsert, mapGet]
  | cons p rest ih =>
    obtain ⟨k, w⟩ := p
    by_cases h : k = key
    · simp [mapInsert, mapGet, h]
    · simp [mapInsert, mapGet, h, ih]

theorem mapGet_mapRemove_self {β : Type} (m : List (String × β)) (key : String) :
    mapGet (mapRemove m key) key = none := by
  induction m with
  | nil => simp [mapRemove, mapGet]
  | cons p rest ih =>
    obtain ⟨k, w⟩ := p
    by_cases h : k = key
    · simp [mapRemove, h, ih]
    · simp [mapRemove, mapGet, h, ih]

theorem mapContains_mapRemove_self {β : Type} (m : List (String × β)) (key : String) :
    mapContains (mapRemove m key) key = false := by
  simp [mapContains, mapGet_mapRemove_self]

theorem mapInsert_keys_of_mem {β : Type} (m : List (String × β)) (key : String) (v : β)
    (h : mapGet m key ≠ none) :
    (mapInsert m key v).map Prod.fst = m.map Prod.fst := by
  induction m with
  | nil => simp [mapGet] at h
  | cons p rest ih =>
    obtain ⟨k, w⟩ := p
    by_cases hk : k = key
    · simp [mapInsert, hk]
    · simp [mapGet, hk] at h
      simp [mapInsert, hk, ih h]

theorem sendToAll_complete (userMap : UserMap) (reply : Reply) (recipients : List Nick)
    (h : ∀ n ∈ recipients, mapContains userMap n = true) :
    sendToAll userMap reply recipients = some (recipients.map (fun n => (n, reply))) := by
  induction recipients with
  | nil => rfl
  | cons n rest ih =>
    have hn := h n (List.mem_cons_self n rest)
    simp only [mapContains] at hn
    obtain ⟨v, hv⟩ := Option.isSome_iff_exists.mp hn
    have hrest := ih (fun m hm => h m (List.mem_cons_of_mem n hm))
    simp [sendToAll, hv, hrest]

theorem quitChannels_complete (userMap : UserMap) (sender : Nick) (message : String)
    (channels : ChannelMap)
    (h : ∀ p ∈ channels, ∀ n ∈ p.2, n ≠ sender → mapContains userMap n = true) :
    quitChannels userMap sender message channels =
      some
        (channels.map (fun p =>
          if sender ∈ p.2 then (p.1, p.2.filter (fun u => u != sender)) else p),
         (channels.map (fun p =>
           if sender ∈ p.2 then
             (p.2.filter (fun u => u != sender)).map
               (fun n => (n, Reply.quitNotice message sender))
           else [])).flatten) := by
  induction channels with
  | nil => rfl
  | cons p rest ih =>
    obtain ⟨c, users⟩ := p
    have hrest := ih (fun q hq n hn hne => h q (List.mem_cons_of_mem _ hq) n hn hne)
    by_cases hmem : sender ∈ users
    · have hall : ∀ n ∈ users.filter (fun u => u != sender),
          mapContains userMap n = true := by
        intro n hn
        rw [List.mem_filter] at hn
        exact h (c, users) (List.mem_cons_self _ _) n hn.1 (by simpa using hn.2)
      simp [quitChannels, hmem, sendToAll_complete userMap _ _ hall, hrest]
    · simp [quitChannels, hmem, hrest]

theorem quitChannels_keys (userMap : UserMap) (sender : Nick) (msg : String) :
    ∀ channels channels' sends,
      quitChannels userMap sender msg channels = some (channels', sends) →
      channels'.map Prod.fst = channels.map Prod.fst := by
  intro channels
  induction channels with
  | nil =>
    intro channels' sends h
    simp [quitChannels] at h
    simp [← h.1]
  | cons p rest ih =>
    obtain ⟨c, users⟩ := p
    intro channels' sends h
    by_cases hmem : sender ∈ users
    · simp only [quitChannels, hmem, if_pos] at h
      cases hs : sendToAll userMap (Reply.quitNotice msg sender)
          (users.filter (fun u => u != sender)) with
      | none => rw [hs] at h; simp at h
      | some s1 =>
        rw [hs] at h
        cases hr : quitChannels userMap sender msg rest with
        | none => rw [hr] at h; simp at h
        | some pr =>
          obtain ⟨rest', sends'⟩ := pr
          rw [hr] at h
          simp at h
          rw [← h.1]
          simp [ih rest' sends' hr]
    · simp only [quitChannels, hmem, if_neg, not_false_iff] at h
      cases hr : quitChannels userMap sender msg rest with
      | none => rw [hr] at h; simp at h
      | some pr =>
        obtain ⟨rest', sends'⟩ := pr
        rw [hr] at h
        simp at h
        rw [← h.1]
        simp [ih rest' sends' hr]

theorem channelBeforeUser_fanoutTrace (c : Bool) (rest : List LockEvent) :
    ∀ n, channelBeforeUser c false (fanoutTrace n ++ rest) =
      channelBeforeUser c false rest := by
  intro n
  induction n with
  | zero => rfl
  | succ n ih => simp [fanoutTrace, channelBeforeUser, afterEvent, ih]

theorem bothHeldOnlySends_fanoutTrace (c : Bool) (rest : List LockEvent) :
    ∀ n, bothHeldOnlySends c false (fanoutTrace n ++ rest) =
      bothHeldOnlySends c false rest := by
  intro n
  induction n with
  | zero => rfl
  | succ n ih => simp [fanoutTrace, bothHeldOnlySends, afterEvent, ih]

theorem channelBeforeUser_quitLoopTrace (rest : List LockEvent) :
    ∀ ks, channelBeforeUser true false (quitLoopTrace ks ++ rest) =
      channelBeforeUser true false rest := by
  intro ks
  induction ks with
  | nil => rfl
  | cons k ksTail ih =>
    simp [quitLoopTrace, channelBeforeUser, afterEvent,
      channelBeforeUser_fanoutTrace, ih]

/-! Claim theorems. -/

/-- C1: the claim says the USER-time directory insertion is authoritative for
nick uniqueness — when an entry for the nick already exists the insertion is
rejected, the sender gets NickCollision, the old entry survives and the
session stays unregistered.  The code does the opposite: with the nick
"alice" already bound to handle 1 in the directory, a nick-provided session
issuing USER sends the welcome unconditionally, `HashMap::insert` silently
overwrites the existing entry with the new handle 2, no NickCollision is
produced, and the session registers (main.rs lines 90-108). -/
theorem handleUser_overwrites_on_collision :
    mapContains [(("alice" : String), (1 : Nat))] "alice" = true ∧
    handleUser [("alice", 1)] { nicked := true, nickname := "alice" } "Alice" 2 =
      ([("alice", 2)], true,
       [Reply.welcome "alice" "Welcome to this server, Alice!"]) := by
  decide

/-- C2: the claim says a nick listed as a channel member but missing from the
user directory is skipped, with delivery continuing and no fault.  The code
instead calls `.unwrap()` on the failed `get_mut` (helpers.rs lines 36, 105,
154, 192), which panics — modelled by the operation evaluating to `none`.
At states whose channel lists contain the unreachable nick "ghost", channel
PrivMsg, Join, Part and Quit all fault instead of skipping. -/
theorem fanout_panics_on_missing_nick :
    private_msg_channel [("#c", ["ghost", "a"])] [("a", 1)] "#c" "hi" "a" = none ∧
    join_channel [("#c", ["ghost"])] [("a", 1)] "a" "#c" = none ∧
    part_channel [("#c", ["ghost", "a"])] [("a", 1)] "#c" "a" = none ∧
    quit_server [("#c", ["ghost", "b"])] [("a", 1), ("b", 2)] "b" "bye" = none :=
  ⟨by decide, by decide, by decide, by decide⟩

/-- C3 counterexample: the claim says a colliding NICK leaves the session's
handshake state, including any previously stored candidate nick, unchanged.
In the code `nickname = nick_msg.nick` runs before the directory check
(main.rs line 74), so a session that had stored candidate "alice" and then
sends NICK "bob" while "bob" is taken ends with stored candidate "bob". -/
theorem handleNick_collision_changes_candidate :
    (handleNick [("bob", 1)] { nicked := true, nickname := "alice" } "bob").1 ≠
      { nicked := true, nickname := "alice" } := by
  decide

/-- C3 (amended): a NICK whose candidate is not in the user directory stores
the candidate and sets the nick-provided flag; a NICK whose candidate is
already present replies NickCollision and leaves the nick-provided flag
unchanged, but overwrites the stored candidate nick with the colliding
candidate (main.rs lines 73-88). -/
theorem handleNick_spec (userMap : UserMap) (session : Session) (candidate : Nick) :
    (mapContains userMap candidate = false →
      handleNick userMap session candidate =
        ({ nicked := true, nickname := candidate }, [])) ∧
    (mapContains userMap candidate = true →
      handleNick userMap session candidate =
        ({ nicked := session.nicked, nickname := candidate },
         [Reply.errNickCollision])) := by
  constructor <;> intro h <;> simp [handleNick, h]

/-- C3 witness: both branches of handleNick_spec at concrete inputs. -/
theorem handleNick_spec_witness :
    handleNick [] { nicked := false, nickname := "zed" } "alice" =
      ({ nicked := true, nickname := "alice" }, []) ∧
    handleNick [("bob", 1)] { nicked := true, nickname := "alice" } "bob" =
      ({ nicked := true, nickname := "bob" }, [Reply.errNickCollision]) :=
  ⟨(handleNick_spec [] { nicked := false, nickname := "zed" } "alice").1 (by decide),
   (handleNick_spec [("bob", 1)] { nicked := true, nickname := "alice" } "bob").2
     (by decide)⟩

/-- C4: Quit removes the sender from the member list of every channel that
contains it and broadcasts exactly one Quit notice per such channel — with
the given reason, defaulting to the sender's nick — to the remaining members
in list order; channels not containing the sender are untouched and get no
notice; afterwards the sender is removed from the user directory, so the
nick is free for a new registration (a fresh NICK for it succeeds).  Stated
for states where every other listed member is registered, since an
unreachable member makes the code panic (see C2). -/
theorem quit_server_spec (channels : ChannelMap) (userMap : UserMap) (sender : Nick)
    (reason : Option String)
    (h : ∀ p ∈ channels, ∀ n ∈ p.2, n ≠ sender → mapContains userMap n = true) :
    quit_server channels userMap sender (quitMessage reason sender) =
      some
        (channels.map (fun p =>
          if sender ∈ p.2 then (p.1, p.2.filter (fun u => u != sender)) else p),
         mapRemove userMap sender,
         (channels.map (fun p =>
           if sender ∈ p.2 then
             (p.2.filter (fun u => u != sender)).map
               (fun n => (n, Reply.quitNotice (quitMessage reason sender) sender))
           else [])).flatten) ∧
    mapContains (mapRemove userMap sender) sender = false ∧
    (∀ session : Session,
      handleNick (mapRemove userMap sender) session sender =
        ({ nicked := true, nickname := sender }, [])) := by
  refine ⟨?_, mapContains_mapRemove_self userMap sender, ?_⟩
  · simp [quit_server,
      quitChannels_complete userMap sender (quitMessage reason sender) channels h]
  · intro session
    simp [handleNick, mapContains_mapRemove_self]

/-- C4 witness: "a" quits (no reason, so the notice carries "a") from a state
where it is a member of "#x" but not "#y"; the notice goes to the remaining
member "b" only, "#y" is untouched, and "a" leaves the user directory. -/
theorem quit_server_spec_witness :
    quit_server [("#x", ["a", "b"]), ("#y", ["b"])] [("a", 1), ("b", 2)] "a"
        (quitMessage none "a") =
      some ([("#x", ["b"]), ("#y", ["b"])], [("b", 2)],
            [("b", Reply.quitNotice "a" "a")]) ∧
    handleNick (mapRemove [(("a" : String), (1 : Nat)), ("b", 2)] "a")
        { nicked := false, nickname := "unregistered user" } "a" =
      ({ nicked := true, nickname := "a" }, []) := by
  have h := quit_server_spec [("#x", ["a", "b"]), ("#y", ["b"])] [("a", 1), ("b", 2)]
    "a" none (by decide)
  exact ⟨h.1.trans (by decide),
         h.2.2 { nicked := false, nickname := "unregistered user" }⟩

/-- C5: Join is idempotent — when the sender is already a member nothing
changes and nothing is broadcast; a first Join to an existing channel
appends the sender and broadcasts the notice in post-append order; a Join
to an absent channel creates it with the sender as sole member and notifies
the sender only; after any successful first Join from a fresh state the
member list holds the sender exactly once and the repeated Join produces the
same state and no sends.  Stated for states where the sender and all listed
members are registered (an unreachable member panics, see C2). -/
theorem join_channel_spec (channels : ChannelMap) (userMap : UserMap) (sender : Nick)
    (channel : Channel)
    (hsender : mapContains userMap sender = true)
    (hmembers : ∀ l, mapGet channels channel = some l →
      ∀ n ∈ l, mapContains userMap n = true) :
    (∀ l, mapGet channels channel = some l → sender ∈ l →
      join_channel channels userMap sender channel = some (channels, [])) ∧
    (∀ l, mapGet channels channel = some l → sender ∉ l →
      join_channel channels userMap sender channel =
        some (mapInsert channels channel (l ++ [sender]),
              (l ++ [sender]).map (fun n => (n, Reply.joinNotice channel sender)))) ∧
    (mapGet channels channel = none →
      join_channel channels userMap sender channel =
        some (mapInsert channels channel [sender],
              [(sender, Reply.joinNotice channel sender)])) ∧
    (∀ channels' sends,
      (∀ l, mapGet channels channel = some l → sender ∉ l) →
      join_channel channels userMap sender channel = some (channels', sends) →
      join_channel channels' userMap sender channel = some (channels', []) ∧
      ∃ l, mapGet channels' channel = some l ∧ l.count sender = 1) := by
  have hsend : ∀ l, mapGet channels channel = some l → sender ∉ l →
      sendToAll userMap (Reply.joinNotice channel sender) (l ++ [sender]) =
        some ((l ++ [sender]).map (fun n => (n, Reply.joinNotice channel sender))) := by
    intro l hl hns
    apply sendToAll_complete
    intro n hn
    rcases List.mem_append.mp hn with h1 | h2
    · exact hmembers l hl n h1
    · simp at h2
      subst h2
      exact hsender
  have p1 : ∀ l, mapGet channels channel = some l → sender ∈ l →
      join_channel channels userMap sender channel = some (channels, []) := by
    intro l hl hmem
    simp [join_channel, hl, hmem]
  have p2 : ∀ l, mapGet channels channel = some l → sender ∉ l →
      join_channel channels userMap sender channel =
        some (mapInsert channels channel (l ++ [sender]),
              (l ++ [sender]).map (fun n => (n, Reply.joinNotice channel sender))) := by
    intro l hl hns
    simp [join_channel, hl, hns, hsend l hl hns]
  have p3 : mapGet channels channel = none →
      join_channel channels userMap sender channel =
        some (mapInsert channels channel [sender],
              [(sender, Reply.joinNotice channel sender)]) := by
    intro hnone
    obtain ⟨v, hv⟩ := Option.isSome_iff_exists.mp (by simpa [mapContains] using hsender)
    simp [join_channel, hnone, hv]
  refine ⟨p1, p2, p3, ?_⟩
  intro channels' sends hfresh heq
  cases hc : mapGet channels channel with
  | none =>
    rw [p3 hc] at heq
    simp at heq
    obtain ⟨h1, h2⟩ := heq
    subst h1
    refine ⟨by simp [join_channel, mapGet_mapInsert_self], ⟨[sender], ?_, by simp⟩⟩
    exact mapGet_mapInsert_self channels channel [sender]
  | some l =>
    have hns := hfresh l hc
    rw [p2 l hc hns] at heq
    simp at heq
    obtain ⟨h1, h2⟩ := heq
    subst h1
    have hget := mapGet_mapInsert_self channels channel (l ++ [sender])
    refine ⟨by simp [join_channel, hget], ⟨l ++ [sender], hget, ?_⟩⟩
    simp [List.count_append, List.count_eq_zero.mpr hns]

/-- C5 witness: "a" joins the absent channel "#x" (created, notice to "a"
only), then joins it again (no-op, no sends, membership count one). -/
theorem join_channel_spec_witness :
    join_channel [] [("a", 1)] "a" "#x" =
      some ([("#x", ["a"])], [("a", Reply.joinNotice "#x" "a")]) ∧
    join_channel [("#x", ["a"])] [("a", 1)] "a" "#x" = some ([("#x", ["a"])], []) ∧
    ([("a" : String)].count "a" = 1) := by
  have h := join_channel_spec [] [("a", 1)] "a" "#x" (by decide)
    (by intro l hl; simp [mapGet] at hl)
  have h1 : join_channel [] [("a", 1)] "a" "#x" =
      some ([("#x", ["a"])], [("a", Reply.joinNotice "#x" "a")]) :=
    (h.2.2.1 rfl).trans (by decide)
  have h4 := h.2.2.2 [("#x", ["a"])] [("a", Reply.joinNotice "#x" "a")]
    (by intro l hl; simp [mapGet] at hl) h1
  exact ⟨h1, h4.1, by decide⟩

/-- C6: channel PrivMsg — absent channel: exactly one NoSuchChannel reply to
the sender only and nothing else; present channel: the message tagged with
the sender is delivered to every current member, including the sender when
listed, in the member list's order.  The embedded operation returns only the
send list: the source function never mutates either directory.  Stated for
states where the sender and all listed members are registered (see C2). -/
theorem private_msg_channel_spec (channels : ChannelMap) (userMap : UserMap)
    (channel : Channel) (msg : String) (sender : Nick)
    (hsender : mapContains userMap sender = true)
    (hmembers : ∀ l, mapGet channels channel = some l →
      ∀ n ∈ l, mapContains userMap n = true) :
    (mapGet channels channel = none →
      private_msg_channel channels userMap channel msg sender =
        some [(sender, Reply.errNoSuchChannel)]) ∧
    (∀ l, mapGet channels channel = some l →
      private_msg_channel channels userMap channel msg sender =
        some (l.map (fun n => (n, Reply.privChannelMsg channel msg sender)))) := by
  constructor
  · intro hnone
    obtain ⟨v, hv⟩ := Option.isSome_iff_exists.mp (by simpa [mapContains] using hsender)
    simp [private_msg_channel, hnone, hv]
  · intro l hl
    simp [private_msg_channel, hl, sendToAll_complete userMap _ l (hmembers l hl)]

/-- C6 witness: both branches at concrete states — a message to present
"#x" reaches both members in order, a message to absent "#y" yields exactly
the one NoSuchChannel reply to the sender. -/
theorem private_msg_channel_spec_witness :
    private_msg_channel [("#x", ["a", "b"])] [("a", 1), ("b", 2)] "#x" "hi" "a" =
      some [("a", Reply.privChannelMsg "#x" "hi" "a"),
            ("b", Reply.privChannelMsg "#x" "hi" "a")] ∧
    private_msg_channel [("#x", ["a", "b"])] [("a", 1), ("b", 2)] "#y" "hi" "a" =
      some [("a", Reply.errNoSuchChannel)] := by
  have h := private_msg_channel_spec [("#x", ["a", "b"])] [("a", 1), ("b", 2)]
    "#x" "hi" "a" (by decide)
    (by intro l hl; simp [mapGet] at hl; subst hl; decide)
  have h' := private_msg_channel_spec [("#x", ["a", "b"])] [("a", 1), ("b", 2)]
    "#y" "hi" "a" (by decide)
    (by intro l hl; simp [mapGet] at hl)
  exact ⟨(h.2 ["a", "b"] (by decide)).trans (by decide), h'.1 (by decide)⟩

/-- C7: Part — existing channel with the sender a member: the Part notice is
broadcast to all current members in pre-removal order (so the sender
receives it) and then the sender is removed; existing channel without the
sender: no-op, so a second Part of the same channel produces no broadcast
and no error; absent channel: NoSuchChannel to the sender only.  Stated for
states where the sender and all listed members are registered (see C2). -/
theorem part_channel_spec (channels : ChannelMap) (userMap : UserMap)
    (channel : Channel) (sender : Nick)
    (hsender : mapContains userMap sender = true)
    (hmembers : ∀ l, mapGet channels channel = some l →
      ∀ n ∈ l, mapContains userMap n = true) :
    (∀ l, mapGet channels channel = some l → sender ∈ l →
      part_channel channels userMap channel sender =
        some (mapInsert channels channel (l.filter (fun u => u != sender)),
              l.map (fun n => (n, Reply.partNotice channel sender)))) ∧
    (∀ l, mapGet channels channel = some l → sender ∉ l →
      part_channel channels userMap channel sender = some (channels, [])) ∧
    (mapGet channels channel = none →
      part_channel channels userMap channel sender =
        some (channels, [(sender, Reply.errNoSuchChannel)])) ∧
    (∀ channels' sends l, mapGet channels channel = some l → sender ∈ l →
      part_channel channels userMap channel sender = some (channels', sends) →
      part_channel channels' userMap channel sender = some (channels', [])) := by
  have p1 : ∀ l, mapGet channels channel = some l → sender ∈ l →
      part_channel channels userMap channel sender =
        some (mapInsert channels channel (l.filter (fun u => u != sender)),
              l.map (fun n => (n, Reply.partNotice channel sender))) := by
    intro l hl hmem
    simp [part_channel, hl, hmem, sendToAll_complete userMap _ l (hmembers l hl)]
  have p2 : ∀ l, mapGet channels channel = some l → sender ∉ l →
      part_channel channels userMap channel sender = some (channels, []) := by
    intro l hl hns
    simp [part_channel, hl, hns]
  have p3 : mapGet channels channel = none →
      part_channel channels userMap channel sender =
        some (channels, [(sender, Reply.errNoSuchChannel)]) := by
    intro hnone
    obtain ⟨v, hv⟩ := Option.isSome_iff_exists.mp (by simpa [mapContains] using hsender)
    simp [part_channel, hnone, hv]
  refine ⟨p1, p2, p3, ?_⟩
  intro channels' sends l hl hmem heq
  rw [p1 l hl hmem] at heq
  simp at heq
  obtain ⟨h1, h2⟩ := heq
  subst h1
  have hget := mapGet_mapInsert_self channels channel (l.filter (fun u => u != sender))
  have hnotmem : sender ∉ l.filter (fun u => u != sender) := by
    simp [List.mem_filter]
  simp [part_channel, hget, hnotmem]

/-- C7 witness: "a" parts "#x" (notice to "a" and "b" in pre-removal order,
then removal), a second Part is a silent no-op, and a Part of the absent
"#y" answers NoSuchChannel to the sender only. -/
theorem part_channel_spec_witness :
    part_channel [("#x", ["a", "b"])] [("a", 1), ("b", 2)] "#x" "a" =
      some ([("#x", ["b"])],
            [("a", Reply.partNotice "#x" "a"), ("b", Reply.partNotice "#x" "a")]) ∧
    part_channel [("#x", ["b"])] [("a", 1), ("b", 2)] "#x" "a" =
      some ([("#x", ["b"])], []) ∧
    part_channel [] [("a", 1)] "#y" "a" = some ([], [("a", Reply.errNoSuchChannel)]) := by
  have h := part_channel_spec [("#x", ["a", "b"])] [("a", 1), ("b", 2)] "#x" "a"
    (by decide) (by intro l hl; simp [mapGet] at hl; subst hl; decide)
  have h1 : part_channel [("#x", ["a", "b"])] [("a", 1), ("b", 2)] "#x" "a" =
      some ([("#x", ["b"])],
            [("a", Reply.partNotice "#x" "a"), ("b", Reply.partNotice "#x" "a")]) :=
    (h.1 ["a", "b"] (by decide) (by decide)).trans (by decide)
  have h3 := part_channel_spec [] [("a", 1)] "#y" "a" (by decide)
    (by intro l hl; simp [mapGet] at hl)
  exact ⟨h1,
         h.2.2.2 [("#x", ["b"])]
           [("a", Reply.partNotice "#x" "a"), ("b", Reply.partNotice "#x" "a")]
           ["a", "b"] (by decide) (by decide) h1,
         h3.2.2.1 (by decide)⟩

/-- C8: user PrivMsg — the sender gets NoSuchNick exactly when the target is
absent from the user directory; when present, the tagged message goes to
that one recipient and no one else.  The embedded operation returns only the
send list: the source function never mutates the directory. -/
theorem private_msg_user_spec (userMap : UserMap) (sender target : Nick) (msg : String)
    (hsender : mapContains userMap sender = true) :
    (mapContains userMap target = true →
      private_msg_user userMap sender target msg =
        some [(target, Reply.privUserMsg target msg sender)]) ∧
    (mapContains userMap target = false →
      private_msg_user userMap sender target msg =
        some [(sender, Reply.errNoSuchNick)]) := by
  constructor
  · intro h
    simp [private_msg_user, h]
  · intro h
    obtain ⟨v, hv⟩ := Option.isSome_iff_exists.mp (by simpa [mapContains] using hsender)
    simp [private_msg_user, h, hv]

/-- C8 witness: delivery to a present target "b" only, and NoSuchNick to the
sender for the absent target "c". -/
theorem private_msg_user_spec_witness :
    private_msg_user [("a", 1), ("b", 2)] "a" "b" "hi" =
      some [("b", Reply.privUserMsg "b" "hi" "a")] ∧
    private_msg_user [("a", 1), ("b", 2)] "a" "c" "hi" =
      some [("a", Reply.errNoSuchNick)] :=
  ⟨(private_msg_user_spec [("a", 1), ("b", 2)] "a" "b" "hi" (by decide)).1 (by decide),
   (private_msg_user_spec [("a", 1), ("b", 2)] "a" "c" "hi" (by decide)).2 (by decide)⟩

/-- C9 (amended): every operation's lock trace respects the fixed order —
the channel-directory lock, when used at all, is taken before any
per-recipient user-directory lock, and the user lock is never held when the
channel lock is acquired — so a channel-scoped worker and a
PrivMsg-to-user worker can never acquire the two directories in opposite
order.  The both-locks-held spans are send-only for the messaging paths,
but not universally (see the counterexample). -/
theorem lock_order_fixed :
    (∀ present n,
      channelBeforeUser false false (private_msg_channel_trace present n) = true) ∧
    channelBeforeUser false false private_msg_user_trace = true ∧
    channelBeforeUser false false ping_trace = true ∧
    (∀ b, channelBeforeUser false false (join_channel_trace b) = true) ∧
    (∀ b, channelBeforeUser false false (part_channel_trace b) = true) ∧
    (∀ ks, channelBeforeUser false false (quit_server_trace ks) = true) ∧
    (∀ present n,
      bothHeldOnlySends false false (private_msg_channel_trace present n) = true) ∧
    bothHeldOnlySends false false private_msg_user_trace = true ∧
    (∀ b, bothHeldOnlySends false false (part_channel_trace b) = true) := by
  refine ⟨?_, by decide, by decide, ?_, ?_, ?_, ?_, by decide, ?_⟩
  · intro present n
    cases present
    · rfl
    · simp [private_msg_channel_trace, channelBeforeUser, afterEvent,
        channelBeforeUser_fanoutTrace]
  · intro b
    cases b with
    | member => decide
    | newMember n =>
      simp [join_channel_trace, channelBeforeUser, afterEvent,
        channelBeforeUser_fanoutTrace]
    | create => decide
  · intro b
    cases b with
    | member n =>
      simp [part_channel_trace, channelBeforeUser, afterEvent,
        channelBeforeUser_fanoutTrace]
    | nonMember => decide
    | absent => decide
  · intro ks
    simp [quit_server_trace, channelBeforeUser, afterEvent,
      channelBeforeUser_quitLoopTrace]
  · intro present n
    cases present
    · rfl
    · simp [private_msg_channel_trace, bothHeldOnlySends, afterEvent,
        bothHeldOnlySends_fanoutTrace]
  · intro b
    cases b with
    | member n =>
      simp [part_channel_trace, bothHeldOnlySends, afterEvent,
        bothHeldOnlySends_fanoutTrace]
    | nonMember => decide
    | absent => decide

/-- C9 counterexample: the claim as stated says both locks are held
simultaneously only for the span of one recipient lookup and one send.  In
the trace of Quit (even with no channels to notify) the final user-directory
removal at helpers.rs lines 209-210 runs with the channel guard still held,
and in Join's create branch the channel insert at helpers.rs line 138 runs
while the user guard from line 123 is live — both are directory mutations
under both locks, not sends. -/
theorem both_locks_held_beyond_sends :
    bothHeldOnlySends false false (quit_server_trace []) = false ∧
    bothHeldOnlySends false false (join_channel_trace JoinBranch.create) = false := by
  decide

/-- C10: a channel entry is never deleted once created — a successful Part
or Quit preserves the channel directory's key list exactly (only member
lists shrink), and a PrivMsg to a channel whose entry has an empty member
list takes the channel-present branch: it is delivered to zero recipients
rather than answered with NoSuchChannel. -/
theorem channel_entries_retained (channels : ChannelMap) (userMap : UserMap)
    (channel : Channel) (sender : Nick) (msg : String) :
    (∀ channels' sends,
      part_channel channels userMap channel sender = some (channels', sends) →
      channels'.map Prod.fst = channels.map Prod.fst) ∧
    (∀ channels' userMap' sends,
      quit_server channels userMap sender msg = some (channels', userMap', sends) →
      channels'.map Prod.fst = channels.map Prod.fst) ∧
    (mapGet channels channel = some [] →
      private_msg_channel channels userMap channel msg sender = some []) := by
  refine ⟨?_, ?_, ?_⟩
  · intro channels' sends heq
    cases hc : mapGet channels channel with
    | none =>
      simp only [part_channel, hc] at heq
      cases hu : mapGet userMap sender with
      | none => rw [hu] at heq; simp at heq
      | some v =>
        rw [hu] at heq
        simp at heq
        rw [← heq.1]
    | some l =>
      by_cases hmem : sender ∈ l
      · simp only [part_channel, hc, hmem, if_pos] at heq
        cases hs : sendToAll userMap (Reply.partNotice channel sender) l with
        | none => rw [hs] at heq; simp at heq
        | some s =>
          rw [hs] at heq
          simp at heq
          rw [← heq.1]
          exact mapInsert_keys_of_mem channels channel _ (by simp [hc])
      · simp only [part_channel, hc, hmem, if_neg, not_false_iff] at heq
        simp at heq
        rw [← heq.1]
  · intro channels' userMap' sends heq
    simp only [quit_server] at heq
    cases hq : quitChannels userMap sender msg channels with
    | none => rw [hq] at heq; simp at heq
    | some pr =>
      obtain ⟨ch', s'⟩ := pr
      rw [hq] at heq
      simp at heq
      rw [← heq.1]
      exact quitChannels_keys userMap sender msg channels ch' s' hq
  · intro hempty
    simp [private_msg_channel, hempty, sendToAll]

/-- C10 witness: parting the last member "a" of "#x" keeps the "#x" entry
(with an empty list), and a later PrivMsg to "#x" over that state delivers
to zero recipients instead of replying NoSuchChannel. -/
theorem channel_entries_retained_witness :
    ([(("#x" : String), ([] : List Iris.Nick))].map Prod.fst =
      [("#x", ["a"])].map Prod.fst) ∧
    private_msg_channel [("#x", [])] [("a", 1)] "#x" "hi" "a" = some [] := by
  refine ⟨?_, ?_⟩
  · exact (channel_entries_retained [("#x", ["a"])] [("a", 1)] "#x" "a" "hi").1
      [("#x", [])] [("a", Reply.partNotice "#x" "a")] (by decide)
  · exact (channel_entries_retained [("#x", [])] [("a", 1)] "#x" "a" "hi").2.2
      (by decide)

end Iris
